import Mathlib

/-!
# ads_backend: the in-memory ad store and the per-client rate limiter

A shallow embedding of

* `internal/domain/ad.go` (the `Ad` record and its string enums),
* `internal/persistence/ads_repository.go` (the map-backed repository),
* `internal/ads_service/service.go` (the service in front of the repository),
* `internal/http/middleware.go` (`RateLimiter`, `getVisitor`, the admission check),
* `internal/http/request.go` (`createAdRequest.Validate`),
* `internal/http/handler.go` (`AdsHandler.ServeHTTP`).

Modelling conventions.

* A `time.Time` is an integer count of nanoseconds on one clock; `time.Time{}` is `0`,
  `t.Add(d)` is `t + d` and `t.After(u)` is `u < t`.
* A `time.Duration` is an `int64` count of nanoseconds; products are reduced to the
  signed 64-bit range (`wrapInt64`), as Go does.
* Every `time.Now()` and `uuid.New().String()` is an explicit argument of the operation
  that performs it, in the order in which the source performs them.
* A Go `map[string]T` is an `AList`: a finite map with pairwise distinct keys. The
  order of its entries stands for the (unspecified) iteration order of `range`.
* The mutexes are not modelled: every operation runs to completion on the state it is
  given and returns the next state.
* A run of the HTTP handler is the list of calls it makes on the service and the
  response it writes, or a panic; a nil pointer is `none`.
-/

namespace AdsBackend

/-! ## `internal/domain/ad.go` -/

/-- The Go type `domain.Status`, a string. -/
abbrev Status := String

/-- The Go type `domain.Placement`, a string. -/
abbrev Placement := String

def StatusActive : Status := "active"

def StatusInactive : Status := "inactive"

def HomeScreen : Placement := "home_screen"

def RideSummary : Placement := "ride_summary"

def MapView : Placement := "map_view"

/-- The Go struct `domain.Ad`. -/
structure Ad where
  ID : String
  Title : String
  ImageUrl : String
  Placement : Placement
  Status : Status
  CreatedAt : Int
  DeactivateAt : Int
  TTLMinutes : Int
deriving DecidableEq

/-- The zero value `domain.Ad{}`. -/
def Ad.zero : Ad := ⟨"", "", "", "", "", 0, 0, 0⟩

/-! ## `time` arithmetic used by the repository and the service -/

/-- Reduction of an integer to the range of `int64` (two's complement wrap-around). -/
def wrapInt64 (x : Int) : Int :=
  (x + 9223372036854775808) % 18446744073709551616 - 9223372036854775808

/-- The constant `time.Minute`, in nanoseconds. -/
def Minute : Int := 60000000000

/-- The expression `time.Duration(ttl) * time.Minute`. -/
def ttlDuration (ttl : Int) : Int := wrapInt64 (wrapInt64 ttl * Minute)

/-- The method `t.Add(d)`. -/
def timeAdd (t d : Int) : Int := t + d

/-- The method `t.After(u)`. -/
def timeAfter (t u : Int) : Bool := decide (u < t)

/-! ## `internal/persistence/ads_repository.go` -/

/-- The Go struct `adRepository`: the map from id to ad (the lock is not modelled). -/
structure adRepository where
  ads : AList (fun _ : String => Ad)
deriving DecidableEq

/-- The constructor `NewAdRepository()`. -/
def NewAdRepository : adRepository := ⟨∅⟩

namespace adRepository

/-- The map read `r.ads[id]`: the stored value, or the zero `Ad` when the key is absent. -/
def index (r : adRepository) (id : String) : Ad := (r.ads.lookup id).getD Ad.zero

def CreateAd (r : adRepository) (ad : Ad) : adRepository × Except String Ad :=
  (⟨r.ads.insert ad.ID ad⟩, .ok ad)

def GetAd (r : adRepository) (id : String) : adRepository × Except String Ad :=
  let ad := r.index id
  if ad = Ad.zero then (r, .error "ad not found")
  else (r, .ok ad)

def DeactivateAd (r : adRepository) (id : String) (now : Int) :
    adRepository × Except String Ad :=
  let ad := r.index id
  if ad = Ad.zero then (r, .error "ad not found")
  else
    let ad := { ad with Status := StatusInactive }
    let ad := { ad with DeactivateAt := now }
    (⟨r.ads.insert id ad⟩, .ok ad)

/-- One iteration of the `for _, ad := range r.ads` loop of
`ListEligibleActiveAdsByPlacement`; `result` is the slice built so far. -/
def listLoopBody (placement : Placement) (now : Int) (result : List Ad) (ad : Ad) : List Ad :=
  if ad.Status ≠ StatusActive then result
  else if ad.Placement ≠ placement then result
  else if ad.TTLMinutes > 0 then
    let expirationTime := timeAdd ad.CreatedAt (ttlDuration ad.TTLMinutes)
    if timeAfter now expirationTime then result
    else result ++ [ad]
  else result ++ [ad]

def ListEligibleActiveAdsByPlacement (r : adRepository) (placement : Placement) (now : Int) :
    adRepository × Except String (List Ad) :=
  let result := r.ads.entries.foldl (fun result e => listLoopBody placement now result e.2) []
  (r, .ok result)

end adRepository

/-! ## `internal/ads_service/service.go`

The struct `service` has the repository as its only field, so the service operations
act on an `adRepository` directly. -/

namespace service

/-- The method `service.CreateAd`; `uid` is the value of `uuid.New().String()`, `t1` and
`t2` are the first and the second `time.Now()` of the body. -/
def CreateAd (r : adRepository) (ad : Ad) (uid : String) (t1 t2 : Int) :
    adRepository × Except String Ad :=
  let ad := { ad with ID := uid }
  let ad := { ad with Status := StatusActive }
  let ad := { ad with CreatedAt := t1 }
  let ad := if ad.TTLMinutes > 0 then
      { ad with DeactivateAt := timeAdd t2 (ttlDuration ad.TTLMinutes) }
    else ad
  match r.CreateAd ad with
  | (r', .error err) => (r', .error err)
  | (r', .ok ad) => (r', .ok ad)

def GetAd (r : adRepository) (id : String) : adRepository × Except String Ad :=
  match r.GetAd id with
  | (r', .error err) => (r', .error err)
  | (r', .ok ad) => (r', .ok ad)

def DeactivateAd (r : adRepository) (id : String) (now : Int) :
    adRepository × Except String Ad :=
  match r.DeactivateAd id now with
  | (r', .error err) => (r', .error err)
  | (r', .ok ad) => (r', .ok ad)

def ListEligibleActiveAdsByPlacement (r : adRepository) (placement : Placement) (now : Int) :
    adRepository × Except String (List Ad) :=
  match r.ListEligibleActiveAdsByPlacement placement now with
  | (r', .error err) => (r', .error err)
  | (r', .ok ads) => (r', .ok ads)

end service

/-! ## Sequences of service calls -/

/-- One call on the service, with the clock readings and the generated id it observes. -/
inductive Op where
  | create (ad : Ad) (uid : String) (t1 t2 : Int)
  | get (id : String)
  | deactivate (id : String) (now : Int)
  | list (placement : Placement) (now : Int)
deriving DecidableEq

/-- What a service call hands back. -/
inductive Reply where
  | ad (res : Except String Ad)
  | ads (res : Except String (List Ad))

/-- The effect of one service call on the store, with its reply. -/
def Op.call (r : adRepository) : Op → adRepository × Reply
  | .create ad uid t1 t2 => ((service.CreateAd r ad uid t1 t2).1, .ad (service.CreateAd r ad uid t1 t2).2)
  | .get id => ((service.GetAd r id).1, .ad (service.GetAd r id).2)
  | .deactivate id now => ((service.DeactivateAd r id now).1, .ad (service.DeactivateAd r id now).2)
  | .list p now =>
    ((service.ListEligibleActiveAdsByPlacement r p now).1,
      .ads (service.ListEligibleActiveAdsByPlacement r p now).2)

/-- The store after a sequence of service calls. -/
def runOps (r : adRepository) : List Op → adRepository
  | [] => r
  | op :: ops => runOps (op.call r).1 ops

/-- Every `create` of the sequence is given an id that is not a key of the store at that
moment (the generated ids are fresh). -/
def freshIds (r : adRepository) : List Op → Bool
  | [] => true
  | .create ad uid t1 t2 :: ops =>
    decide (uid ∉ r.ads) && freshIds ((Op.create ad uid t1 t2).call r).1 ops
  | op :: ops => freshIds (op.call r).1 ops

/-- The sequence holds no `deactivate` of `id`. -/
def neverDeactivates (id : String) : List Op → Bool
  | [] => true
  | .deactivate id' _ :: ops => decide (id' ≠ id) && neverDeactivates id ops
  | _ :: ops => neverDeactivates id ops

/-- The record that the body of `service.CreateAd` hands to the repository. -/
def stamped (ad : Ad) (uid : String) (t1 t2 : Int) : Ad :=
  { ID := uid, Title := ad.Title, ImageUrl := ad.ImageUrl, Placement := ad.Placement,
    Status := StatusActive, CreatedAt := t1,
    DeactivateAt := if ad.TTLMinutes > 0 then timeAdd t2 (ttlDuration ad.TTLMinutes)
      else ad.DeactivateAt,
    TTLMinutes := ad.TTLMinutes }

/-- The record that `adRepository.DeactivateAd` writes back for a stored record `a`. -/
def retired (a : Ad) (now : Int) : Ad :=
  { a with Status := StatusInactive, DeactivateAt := now }

/-- The test under which the loop body of `ListEligibleActiveAdsByPlacement` reaches its
`append`: none of the three `continue` statements is taken. -/
def eligible (placement : Placement) (now : Int) (ad : Ad) : Bool :=
  decide (ad.Status = StatusActive) && decide (ad.Placement = placement) &&
    !(decide (ad.TTLMinutes > 0) &&
      timeAfter now (timeAdd ad.CreatedAt (ttlDuration ad.TTLMinutes)))

/-- Every stored record is stored under its own id and has one of the two statuses. -/
def StoreInv (r : adRepository) : Prop :=
  ∀ k a, r.ads.lookup k = some a →
    a.ID = k ∧ (a.Status = StatusActive ∨ a.Status = StatusInactive)

/-! ## `internal/http/middleware.go` -/

/-- Modelled from the spec: the token bucket behind `*rate.Limiter`
(`golang.org/x/time/rate`, whose source is not part of the repository). The spec gives a
bucket a refill rate in tokens per second, a capacity `burst`, the current `tokens` and
the timestamp `lastRefill` of the most recent refill computation. -/
structure Limiter where
  limit : Int
  burst : Int
  tokens : ℚ
  lastRefill : Int
deriving DecidableEq

/-- Modelled from the spec: `rate.NewLimiter(r, b)`, which is not part of the repository
sources. The spec creates a bucket lazily with a full bucket, and identifies `lastRefill`
with the `lastSeen` that `getVisitor` sets to the creation time `now`. -/
def NewLimiter (limit burst : Int) (now : Int) : Limiter :=
  { limit := limit, burst := burst, tokens := burst, lastRefill := now }

/-- Modelled from the spec: `limiter.Allow()` at clock reading `now`, which is not part of
the repository sources. The spec adds `elapsed_seconds * refillRate` tokens capped at
`burst`; if at least one token is available it deducts one and allows, otherwise it
rejects and leaves the bucket unchanged. -/
def Limiter.Allow (l : Limiter) (now : Int) : Limiter × Bool :=
  let elapsedSeconds : ℚ := ((now - l.lastRefill : Int) : ℚ) / 1000000000
  let tokens : ℚ := min (l.burst : ℚ) (l.tokens + elapsedSeconds * (l.limit : ℚ))
  if 1 ≤ tokens then ({ l with tokens := tokens - 1, lastRefill := now }, true)
  else (l, false)

/-- The Go struct `visitor`; the limiter it points to is held by value. -/
structure visitor where
  limiter : Limiter
  lastSeen : Int
deriving DecidableEq

/-- The Go struct `RateLimiter` (the lock is not modelled); `rate` is
`rate.Limit(requestsPerSecond)`. -/
structure RateLimiter where
  visitors : AList (fun _ : String => visitor)
  rate : Int
  burst : Int
deriving DecidableEq

def NewRateLimiter (requestsPerSecond : Int) (burst : Int) : RateLimiter :=
  { visitors := ∅, rate := requestsPerSecond, burst := burst }

/-- The constructor `NewRateLimiterMiddleware()` of `internal/http/server.go`. -/
def NewRateLimiterMiddleware : RateLimiter := NewRateLimiter 10 20

namespace RateLimiter

/-- The method `getVisitor`; `now` is its `time.Now()`. Returns the next state and the
limiter of the visitor. -/
def getVisitor (rl : RateLimiter) (ip : String) (now : Int) : RateLimiter × Limiter :=
  match rl.visitors.lookup ip with
  | none =>
    let limiter := NewLimiter rl.rate rl.burst now
    ({ rl with visitors := rl.visitors.insert ip { limiter := limiter, lastSeen := now } },
      limiter)
  | some v =>
    ({ rl with visitors := rl.visitors.insert ip { v with lastSeen := now } }, v.limiter)

/-- The admission check of the handler built by `Middleware`, for the client key `ip`
(the host part of `r.RemoteAddr`, or all of it when it does not split): `tSeen` is the
clock reading of `getVisitor`, `tAllow` the one of `limiter.Allow()`. The limiter is
shared by pointer with the visitor stored under `ip`, so the state `Allow` leaves behind
is written to that entry. Returns the next state and whether `next` is served. -/
def Middleware (rl : RateLimiter) (ip : String) (tSeen tAllow : Int) : RateLimiter × Bool :=
  let rl1 := (rl.getVisitor ip tSeen).1
  let limiter := (rl.getVisitor ip tSeen).2
  let allowed := limiter.Allow tAllow
  ({ rl1 with visitors := rl1.visitors.insert ip { limiter := allowed.1, lastSeen := tSeen } },
    allowed.2)

end RateLimiter

/-- One request reaching the rate limiter: the client key and the two clock readings. -/
structure Check where
  ip : String
  tSeen : Int
  tAllow : Int
deriving DecidableEq

/-- The state after a sequence of admission checks, with the outcome of each check next
to the key it was made for. -/
def runChecks (rl : RateLimiter) : List Check → RateLimiter × List (String × Bool)
  | [] => (rl, [])
  | c :: cs =>
    ((runChecks (rl.Middleware c.ip c.tSeen c.tAllow).1 cs).1,
      (c.ip, (rl.Middleware c.ip c.tSeen c.tAllow).2) ::
        (runChecks (rl.Middleware c.ip c.tSeen c.tAllow).1 cs).2)

/-! ## `internal/http/request.go` -/

/-- The Go struct `createAdRequest` as the JSON decoder leaves it; the pointer field
`TTLMinutes *int` is `none` when it is `nil` (the key was absent from the body). -/
structure createAdRequest where
  Title : String
  ImageURL : String
  Placement : Placement
  TTLMinutes : Option Int
deriving DecidableEq

/-- The method `createAdRequest.Validate`: the returned error, `none` for `nil`. -/
def createAdRequest.Validate (r : createAdRequest) : Option String :=
  if r.Title = "" then some "title is required"
  else if r.ImageURL = "" then some "image_url is required"
  else if (match r.TTLMinutes with
      | some ttl => decide (ttl < 0)
      | none => false) then
    some "ttl_minutes must be greater than or equal to 0"
  else none

/-! ## `internal/http/handler.go` -/

namespace strings

/-- The Go function `strings.HasPrefix`. -/
def HasPrefix (s pre : String) : Bool := pre.data.isPrefixOf s.data

/-- The Go function `strings.HasSuffix`. -/
def HasSuffix (s suf : String) : Bool := suf.data.reverse.isPrefixOf s.data.reverse

/-- The Go function `strings.TrimPrefix`. -/
def TrimPrefix (s pre : String) : String :=
  if HasPrefix s pre then ⟨s.data.drop pre.data.length⟩ else s

/-- The Go function `strings.TrimSuffix`. -/
def TrimSuffix (s suf : String) : String :=
  if HasSuffix s suf then ⟨s.data.take (s.data.length - suf.data.length)⟩ else s

/-- The Go call `strings.Contains(s, "/")`. -/
def ContainsSlash (s : String) : Bool := s.data.contains '/'

end strings

def MethodGet : String := "GET"

def MethodPost : String := "POST"

/-- What `ServeHTTP` reads of a `*http.Request`: the method, `r.URL.Path`, the lookup
`r.URL.Query().Get(name)` (the empty string for an absent parameter) and the result of
decoding `r.Body` into a `createAdRequest` (the decoder's error, or the request). -/
structure Request where
  Method : String
  Path : String
  Query : String → String
  Body : Except String createAdRequest

/-- The interface `ads_service.Service` as one request sees it: the answer each method
gives at the moment of the call. -/
structure Service where
  CreateAd : Ad → Except String Ad
  GetAd : String → Except String Ad
  DeactivateAd : String → Except String Ad
  ListEligibleActiveAdsByPlacement : Placement → Except String (List Ad)

/-- A call made on the service, with its argument. -/
inductive Call where
  | CreateAd (ad : Ad)
  | GetAd (id : String)
  | DeactivateAd (id : String)
  | ListEligibleActiveAdsByPlacement (placement : Placement)
deriving DecidableEq

/-- What is written to the response body: a plain text line, or the JSON encoding of an
ad or of a list of ads. -/
inductive Body where
  | text (line : String)
  | ad (ad : Ad)
  | ads (ads : List Ad)
deriving DecidableEq

/-- The status code, the `Content-Type` header and the body written to the
`http.ResponseWriter`. -/
structure Response where
  status : Nat
  contentType : String
  body : Body
deriving DecidableEq

/-- How a run of `ServeHTTP` ends: with a response, or with a run-time panic. -/
inductive Outcome where
  | response (resp : Response)
  | panicked (msg : String)
deriving DecidableEq

/-- A run of `ServeHTTP`: the calls it made on the service, in order, and how it ended. -/
structure Handled where
  calls : List Call
  outcome : Outcome
deriving DecidableEq

def StatusOK : Nat := 200

def StatusCreated : Nat := 201

def StatusBadRequest : Nat := 400

def StatusNotFound : Nat := 404

def StatusInternalServerError : Nat := 500

/-- The library call `http.Error(w, msg, code)`. -/
def httpError (msg : String) (code : Nat) : Response :=
  { status := code, contentType := "text/plain; charset=utf-8", body := .text (msg ++ "\n") }

/-- The library call `http.NotFound(w, r)`. -/
def httpNotFound : Response := httpError "404 page not found" StatusNotFound

/-- A JSON response with the given status code. -/
def jsonResponse (code : Nat) (body : Body) : Response :=
  { status := code, contentType := "application/json", body := body }

namespace AdsHandler

/-- The method `AdsHandler.ServeHTTP`, for the service `svc` held by the handler. -/
def ServeHTTP (svc : Service) (r : Request) : Handled :=
  let path := r.Path
  if r.Method = MethodPost ∧ path = "/adposts" then
    match r.Body with
    | .error err => ⟨[], .response (httpError err StatusBadRequest)⟩
    | .ok req =>
      match req.Validate with
      | some err => ⟨[], .response (httpError err StatusBadRequest)⟩
      | none =>
        match req.TTLMinutes with
        | none => ⟨[], .panicked "invalid memory address or nil pointer dereference"⟩
        | some ttl =>
          let ad : Ad :=
            { ID := "", Title := req.Title, ImageUrl := req.ImageURL,
              Placement := req.Placement, Status := "", CreatedAt := 0, DeactivateAt := 0,
              TTLMinutes := ttl }
          match svc.CreateAd ad with
          | .error err =>
            ⟨[.CreateAd ad], .response (httpError err StatusInternalServerError)⟩
          | .ok created => ⟨[.CreateAd ad], .response (jsonResponse StatusCreated (.ad created))⟩
  else if r.Method = MethodGet ∧ strings.HasPrefix path "/adposts/" then
    let id := strings.TrimPrefix path "/adposts/"
    if id = "" ∨ strings.ContainsSlash id then ⟨[], .response httpNotFound⟩
    else
      match svc.GetAd id with
      | .error err => ⟨[.GetAd id], .response (httpError err StatusNotFound)⟩
      | .ok ad => ⟨[.GetAd id], .response (jsonResponse StatusOK (.ad ad))⟩
  else if r.Method = MethodPost ∧ strings.HasPrefix path "/adposts/" ∧
      strings.HasSuffix path "/deactivate" then
    let pathWithoutPrefix := strings.TrimPrefix path "/adposts/"
    let id := strings.TrimSuffix pathWithoutPrefix "/deactivate"
    if id = "" ∨ strings.ContainsSlash id then ⟨[], .response httpNotFound⟩
    else
      match svc.DeactivateAd id with
      | .error err => ⟨[.DeactivateAd id], .response (httpError err StatusNotFound)⟩
      | .ok ad => ⟨[.DeactivateAd id], .response (jsonResponse StatusOK (.ad ad))⟩
  else if r.Method = MethodGet ∧ path = "/adspots" then
    let placementStr := r.Query "placement"
    let statusStr := r.Query "status"
    if statusStr ≠ "" ∧ statusStr ≠ "active" then
      ⟨[], .response (httpError "status parameter must be 'active'" StatusBadRequest)⟩
    else if placementStr = "" then
      ⟨[], .response (httpError "placement parameter is required" StatusBadRequest)⟩
    else
      let placement : Placement := placementStr
      if placement ≠ HomeScreen ∧ placement ≠ RideSummary ∧ placement ≠ MapView then
        ⟨[], .response (httpError "invalid placement value" StatusBadRequest)⟩
      else
        match svc.ListEligibleActiveAdsByPlacement placement with
        | .error err =>
          ⟨[.ListEligibleActiveAdsByPlacement placement],
            .response (httpError err StatusInternalServerError)⟩
        | .ok ads =>
          ⟨[.ListEligibleActiveAdsByPlacement placement],
            .response (jsonResponse StatusOK (.ads ads))⟩
  else ⟨[], .response httpNotFound⟩

end AdsHandler

/-! ## Sample inputs -/

/-- A create request body with a TTL of 30 minutes, as the handler builds it. -/
def ad30 : Ad := ⟨"", "Summer sale", "http://example.com/ad.jpg", HomeScreen, "", 0, 0, 30⟩

/-- A create request body without expiry. -/
def ad0 : Ad := ⟨"", "Evergreen", "http://example.com/ever.jpg", MapView, "", 0, 0, 0⟩

/-- A create request body whose TTL in nanoseconds does not fit in `int64`. -/
def adLong : Ad := ⟨"", "Long run", "http://example.com/long.jpg", HomeScreen, "", 0, 0, 153722868⟩

/-- A short session on the service after an ad was created under `"id-1"`. -/
def sampleOps : List Op :=
  [.get "id-1", .create ad0 "id-2" 7 8, .list HomeScreen 9, .deactivate "id-2" 10,
    .deactivate "id-9" 11]

/-- Requests from two clients, interleaved, over one second. -/
def sampleChecks : List Check :=
  [⟨"10.0.0.2", 0, 1⟩, ⟨"10.0.0.1", 2, 3⟩, ⟨"10.0.0.2", 4, 5⟩, ⟨"10.0.0.1", 500000000, 500000001⟩,
    ⟨"10.0.0.2", 1000000000, 1000000002⟩]

/-- The limiter `NewRateLimiter(10, 1)` after one admitted request of `10.0.0.1` at
time `0`: the bucket of that client is empty. -/
def spentLimiter : RateLimiter :=
  { visitors := AList.singleton "10.0.0.1"
      { limiter := { limit := 10, burst := 1, tokens := 0, lastRefill := 0 }, lastSeen := 0 },
    rate := 10, burst := 1 }

/-- The service over the store `r` as one request sees it: `uid`, `t1`, `t2` are the id
and the clock readings a `CreateAd` would observe, `now` the clock reading of a
`DeactivateAd` or of a listing. -/
def serviceAt (r : adRepository) (uid : String) (t1 t2 now : Int) : Service :=
  { CreateAd := fun ad => (service.CreateAd r ad uid t1 t2).2,
    GetAd := fun id => (service.GetAd r id).2,
    DeactivateAd := fun id => (service.DeactivateAd r id now).2,
    ListEligibleActiveAdsByPlacement := fun p =>
      (service.ListEligibleActiveAdsByPlacement r p now).2 }

/-- A service whose listing fails, as the mock of the handler tests does. -/
def failingService : Service :=
  { CreateAd := fun _ => .error "database connection failed",
    GetAd := fun _ => .error "database connection failed",
    DeactivateAd := fun _ => .error "database connection failed",
    ListEligibleActiveAdsByPlacement := fun _ => .error "database connection failed" }

/-- The query string `placement=<p>&status=<s>`. -/
def adspotsQuery (p s : String) : String → String :=
  fun name => if name = "placement" then p else if name = "status" then s else ""

/-- The request `GET /adspots?placement=<p>&status=<s>`. -/
def adspotsRequest (p s : String) : Request :=
  { Method := MethodGet, Path := "/adspots", Query := adspotsQuery p s,
    Body := .error "EOF" }

/-- The request `POST /adposts` with the decoded body `req`. -/
def adpostsRequest (req : createAdRequest) : Request :=
  { Method := MethodPost, Path := "/adposts", Query := fun _ => "", Body := .ok req }

/-- The body `{"title": "Spring", "imageUrl": "http://example.com/s.jpg",
"placement": "banner", "ttlMinutes": 5}`, decoded. -/
def bannerRequest : createAdRequest :=
  { Title := "Spring", ImageURL := "http://example.com/s.jpg", Placement := "banner",
    TTLMinutes := some 5 }

/-- The body `{"title": "Spring", "imageUrl": "http://example.com/s.jpg",
"placement": "home_screen"}`, decoded: the key `ttlMinutes` is absent. -/
def noTtlRequest : createAdRequest :=
  { Title := "Spring", ImageURL := "http://example.com/s.jpg", Placement := HomeScreen,
    TTLMinutes := none }

/-! ## Lemmas on the repository -/

theorem wrapInt64_of_range (x : Int) (h1 : -9223372036854775808 ≤ x)
    (h2 : x < 9223372036854775808) : wrapInt64 x = x := by
  unfold wrapInt64
  rw [Int.emod_eq_of_lt (by omega) (by omega)]
  omega

theorem ttlDuration_of_range (ttl : Int) (h1 : 0 ≤ ttl) (h2 : ttl ≤ 153722867) :
    ttlDuration ttl = ttl * Minute := by
  unfold ttlDuration
  rw [wrapInt64_of_range ttl (by omega) (by omega)]
  unfold Minute
  exact wrapInt64_of_range _ (by omega) (by omega)

theorem listLoopBody_eq (p : Placement) (now : Int) (result : List Ad) (ad : Ad) :
    adRepository.listLoopBody p now result ad =
      if eligible p now ad then result ++ [ad] else result := by
  unfold adRepository.listLoopBody eligible
  by_cases h1 : ad.Status = StatusActive <;> by_cases h2 : ad.Placement = p <;>
    by_cases h3 : ad.TTLMinutes > 0 <;>
    by_cases h4 : timeAfter now (timeAdd ad.CreatedAt (ttlDuration ad.TTLMinutes)) = true <;>
    simp [h1, h2, h3, h4]

theorem foldl_listLoopBody (p : Placement) (now : Int) (l : List (Sigma fun _ : String => Ad))
    (acc : List Ad) :
    l.foldl (fun result e => adRepository.listLoopBody p now result e.2) acc =
      acc ++ (l.map (fun e => e.2)).filter (eligible p now) := by
  induction l generalizing acc with
  | nil => simp
  | cons e l ih =>
    rw [List.foldl_cons, ih, listLoopBody_eq]
    by_cases h : eligible p now e.2 = true <;> simp [h, List.filter_cons]

/-- The listing never fails, leaves the store as it is, and returns the stored values
that pass `eligible`, in iteration order. -/
theorem list_eq_filter (r : adRepository) (p : Placement) (now : Int) :
    r.ListEligibleActiveAdsByPlacement p now =
      (r, .ok ((r.ads.entries.map (fun e => e.2)).filter (eligible p now))) := by
  unfold adRepository.ListEligibleActiveAdsByPlacement
  simp [foldl_listLoopBody]

theorem service_list_eq (r : adRepository) (p : Placement) (now : Int) :
    service.ListEligibleActiveAdsByPlacement r p now =
      (r, .ok ((r.ads.entries.map (fun e => e.2)).filter (eligible p now))) := by
  unfold service.ListEligibleActiveAdsByPlacement
  rw [list_eq_filter]

theorem mem_values_iff (r : adRepository) (a : Ad) :
    a ∈ r.ads.entries.map (fun e => e.2) ↔ ∃ k, r.ads.lookup k = some a := by
  constructor
  · intro h
    obtain ⟨e, he, rfl⟩ := List.mem_map.1 h
    exact ⟨e.1, AList.mem_lookup_iff.2 he⟩
  · rintro ⟨k, hk⟩
    exact List.mem_map.2 ⟨⟨k, a⟩, AList.mem_lookup_iff.1 hk, rfl⟩

/-! ## Lemmas on the service -/

theorem service_create_eq (r : adRepository) (ad : Ad) (uid : String) (t1 t2 : Int) :
    service.CreateAd r ad uid t1 t2 =
      (⟨r.ads.insert uid (stamped ad uid t1 t2)⟩, .ok (stamped ad uid t1 t2)) := by
  unfold service.CreateAd adRepository.CreateAd stamped
  by_cases h : ad.TTLMinutes > 0 <;> simp [h]

theorem service_get_eq (r : adRepository) (id : String) :
    service.GetAd r id =
      if r.index id = Ad.zero then (r, .error "ad not found") else (r, .ok (r.index id)) := by
  unfold service.GetAd adRepository.GetAd
  by_cases h : r.index id = Ad.zero <;> simp [h]

theorem service_deactivate_eq (r : adRepository) (id : String) (now : Int) :
    service.DeactivateAd r id now =
      if r.index id = Ad.zero then (r, .error "ad not found")
      else (⟨r.ads.insert id (retired (r.index id) now)⟩, .ok (retired (r.index id) now)) := by
  unfold service.DeactivateAd adRepository.DeactivateAd retired
  by_cases h : r.index id = Ad.zero <;> simp [h]

theorem stamped_ne_zero (ad : Ad) (uid : String) (t1 t2 : Int) :
    stamped ad uid t1 t2 ≠ Ad.zero := by
  intro h
  have h2 : (stamped ad uid t1 t2).Status = Ad.zero.Status := by rw [h]
  revert h2
  simp [stamped, Ad.zero, StatusActive]

theorem index_of_lookup {r : adRepository} {id : String} {a : Ad}
    (h : r.ads.lookup id = some a) : r.index id = a := by
  simp [adRepository.index, h]

theorem index_of_not_mem {r : adRepository} {id : String} (h : id ∉ r.ads) :
    r.index id = Ad.zero := by
  simp [adRepository.index, AList.lookup_eq_none.2 h]

theorem index_insert_self (m : AList (fun _ : String => Ad)) (id : String) (a : Ad) :
    (adRepository.mk (m.insert id a)).index id = a := by
  simp [adRepository.index, AList.lookup_insert]

theorem lookup_of_index_ne_zero {r : adRepository} {id : String}
    (h : r.index id ≠ Ad.zero) : r.ads.lookup id = some (r.index id) := by
  cases hl : r.ads.lookup id with
  | none => exact absurd (by simp [adRepository.index, hl]) h
  | some a => simp [adRepository.index, hl]

/-! ## The store invariant and sequences of calls -/

theorem storeInv_new : StoreInv NewAdRepository := by
  intro k a h
  simp [NewAdRepository, AList.lookup_empty] at h

theorem storeInv_insert {r : adRepository} (h : StoreInv r) (id : String) (a : Ad)
    (ha : a.ID = id) (hs : a.Status = StatusActive ∨ a.Status = StatusInactive) :
    StoreInv ⟨r.ads.insert id a⟩ := by
  intro k b hk
  by_cases hkid : k = id
  · subst hkid
    rw [AList.lookup_insert] at hk
    cases hk
    exact ⟨ha, hs⟩
  · rw [AList.lookup_insert_ne hkid] at hk
    exact h k b hk

theorem storeInv_call {r : adRepository} (h : StoreInv r) (op : Op) :
    StoreInv (op.call r).1 := by
  cases op with
  | create ad uid t1 t2 =>
    simp only [Op.call, service_create_eq]
    exact storeInv_insert h uid _ rfl (Or.inl rfl)
  | get id =>
    simp only [Op.call, service_get_eq]
    split <;> exact h
  | deactivate id now =>
    simp only [Op.call, service_deactivate_eq]
    split
    · exact h
    · rename_i hz
      exact storeInv_insert h id _ (h id _ (lookup_of_index_ne_zero hz)).1 (Or.inr rfl)
  | list p now =>
    simp only [Op.call, service_list_eq]
    exact h

theorem storeInv_runOps {r : adRepository} (h : StoreInv r) (ops : List Op) :
    StoreInv (runOps r ops) := by
  induction ops generalizing r with
  | nil => exact h
  | cons op ops ih => exact ih (storeInv_call h op)

theorem mem_call {r : adRepository} {id : String} (h : id ∈ r.ads) (op : Op) :
    id ∈ (op.call r).1.ads := by
  cases op with
  | create ad uid t1 t2 =>
    simp only [Op.call, service_create_eq]
    exact (AList.mem_insert _).2 (Or.inr h)
  | get id' =>
    simp only [Op.call, service_get_eq]
    split <;> exact h
  | deactivate id' now =>
    simp only [Op.call, service_deactivate_eq]
    split
    · exact h
    · exact (AList.mem_insert _).2 (Or.inr h)
  | list p now =>
    simp only [Op.call, service_list_eq]
    exact h

/-- A call that neither creates under `id` nor deactivates `id` leaves the entry of `id`
as it is. -/
theorem lookup_call_of_ne (r : adRepository) (op : Op) (id : String)
    (hc : ∀ ad uid t1 t2, op = .create ad uid t1 t2 → uid ≠ id)
    (hd : ∀ id' now, op = .deactivate id' now → id' ≠ id) :
    (op.call r).1.ads.lookup id = r.ads.lookup id := by
  cases op with
  | create ad uid t1 t2 =>
    simp only [Op.call, service_create_eq]
    exact AList.lookup_insert_ne (Ne.symm (hc ad uid t1 t2 rfl))
  | get id' =>
    simp only [Op.call, service_get_eq]
    split <;> rfl
  | deactivate id' now =>
    simp only [Op.call, service_deactivate_eq]
    split
    · rfl
    · exact AList.lookup_insert_ne (Ne.symm (hd id' now rfl))
  | list p now =>
    simp only [Op.call, service_list_eq]

/-- The entry of a stored id survives every sequence of calls with fresh generated ids
that never deactivates it. -/
theorem lookup_runOps_of_untouched (r : adRepository) (ops : List Op) (id : String)
    (hmem : id ∈ r.ads) (hf : freshIds r ops = true) (hd : neverDeactivates id ops = true) :
    (runOps r ops).ads.lookup id = r.ads.lookup id := by
  induction ops generalizing r with
  | nil => rfl
  | cons op ops ih =>
    have hstep : (op.call r).1.ads.lookup id = r.ads.lookup id := by
      apply lookup_call_of_ne
      · intro ad uid t1 t2 hop
        subst hop
        simp only [freshIds, Bool.and_eq_true, decide_eq_true_eq] at hf
        intro hu
        exact hf.1 (hu ▸ hmem)
      · intro id' now hop
        subst hop
        simp only [neverDeactivates, Bool.and_eq_true, decide_eq_true_eq] at hd
        exact hd.1
    have hf' : freshIds (op.call r).1 ops = true := by
      cases op <;> simp_all [freshIds]
    have hd' : neverDeactivates id ops = true := by
      cases op <;> simp_all [neverDeactivates]
    show (runOps (op.call r).1 ops).ads.lookup id = r.ads.lookup id
    rw [ih (op.call r).1 (mem_call hmem op) hf' hd', hstep]

/-- One call with a fresh generated id keeps an inactive record inactive. -/
theorem inactive_call (r : adRepository) (op : Op) (id : String) (a : Ad)
    (h : r.ads.lookup id = some a) (hs : a.Status = StatusInactive)
    (hf : freshIds r [op] = true) :
    ∃ b, (op.call r).1.ads.lookup id = some b ∧ b.Status = StatusInactive := by
  have hmem : id ∈ r.ads := AList.lookup_isSome.1 (by simp [h])
  by_cases hdeact : ∃ now, op = .deactivate id now
  · obtain ⟨now, rfl⟩ := hdeact
    have hidx : r.index id = a := index_of_lookup h
    have hz : r.index id ≠ Ad.zero := by
      rw [hidx]
      intro hz
      rw [hz] at hs
      simp [Ad.zero, StatusInactive] at hs
    simp only [Op.call, service_deactivate_eq, if_neg hz]
    exact ⟨_, AList.lookup_insert _, rfl⟩
  · refine ⟨a, ?_, hs⟩
    rw [← h]
    apply lookup_call_of_ne
    · intro ad uid t1 t2 hop
      subst hop
      simp only [freshIds, Bool.and_eq_true, decide_eq_true_eq] at hf
      intro hu
      exact hf.1 (hu ▸ hmem)
    · intro id' now hop hid
      exact hdeact ⟨now, by rw [hop, hid]⟩

theorem eligible_iff (p : Placement) (now : Int) (a : Ad) :
    eligible p now a = true ↔
      a.Status = StatusActive ∧ a.Placement = p ∧
        (a.TTLMinutes > 0 → now ≤ a.CreatedAt + ttlDuration a.TTLMinutes) := by
  unfold eligible timeAfter timeAdd
  simp only [Bool.and_eq_true, Bool.not_eq_true', Bool.and_eq_false_iff, decide_eq_true_eq,
    decide_eq_false_iff_not, and_assoc]
  constructor
  · rintro ⟨h1, h2, h3⟩
    refine ⟨h1, h2, fun h => ?_⟩
    rcases h3 with h3 | h3
    · exact absurd h h3
    · omega
  · rintro ⟨h1, h2, h3⟩
    refine ⟨h1, h2, ?_⟩
    by_cases h : a.TTLMinutes > 0
    · exact Or.inr (by have := h3 h; omega)
    · exact Or.inl h

/-- The listing, on a store whose TTLs all fit the `int64` duration: it returns the
stored records that are active, have the placement asked for and, when their TTL is
positive, have `now <= createdAt + ttlMinutes` minutes; nothing else. -/
theorem list_mem_iff_of_ttl_range (r : adRepository) (p : Placement) (now : Int)
    (hr : ∀ k a, r.ads.lookup k = some a → 0 ≤ a.TTLMinutes ∧ a.TTLMinutes ≤ 153722867) :
    ∃ ads, r.ListEligibleActiveAdsByPlacement p now = (r, .ok ads) ∧
      ∀ a, a ∈ ads ↔ (∃ k, r.ads.lookup k = some a) ∧ a.Status = StatusActive ∧
        a.Placement = p ∧ (a.TTLMinutes > 0 → now ≤ a.CreatedAt + a.TTLMinutes * Minute) := by
  refine ⟨_, list_eq_filter r p now, fun a => ?_⟩
  rw [List.mem_filter, mem_values_iff, eligible_iff]
  constructor
  · rintro ⟨⟨k, hk⟩, h1, h2, h3⟩
    refine ⟨⟨k, hk⟩, h1, h2, ?_⟩
    rw [← ttlDuration_of_range _ (hr k a hk).1 (hr k a hk).2]
    exact h3
  · rintro ⟨⟨k, hk⟩, h1, h2, h3⟩
    refine ⟨⟨k, hk⟩, h1, h2, ?_⟩
    rw [ttlDuration_of_range _ (hr k a hk).1 (hr k a hk).2]
    exact h3

/-- The record built by `service.CreateAd` for a TTL whose duration fits `int64`: its
`DeactivateAt` is the second clock reading plus the TTL. -/
theorem stamped_deactivateAt (ad : Ad) (uid : String) (t1 t2 : Int)
    (h1 : 0 < ad.TTLMinutes) (h2 : ad.TTLMinutes ≤ 153722867) :
    (stamped ad uid t1 t2).DeactivateAt = t2 + ad.TTLMinutes * Minute := by
  simp [stamped, h1, timeAdd, ttlDuration_of_range _ (le_of_lt h1) h2]

theorem freshIds_cons {r : adRepository} {op : Op} {ops : List Op}
    (h : freshIds r (op :: ops) = true) :
    freshIds r [op] = true ∧ freshIds (op.call r).1 ops = true := by
  cases op <;> simp_all [freshIds]

theorem retired_ne_zero (a : Ad) (now : Int) : retired a now ≠ Ad.zero := by
  intro h
  have h2 : (retired a now).Status = Ad.zero.Status := by rw [h]
  revert h2
  simp [retired, Ad.zero, StatusInactive]

theorem ne_zero_of_storeInv {r : adRepository} (h : StoreInv r) {k : String} {a : Ad}
    (hk : r.ads.lookup k = some a) : a ≠ Ad.zero := by
  intro hz
  rcases (h k a hk).2 with hs | hs <;> rw [hz] at hs <;>
    simp [Ad.zero, StatusActive, StatusInactive] at hs

/-! ## The claims on the ad store -/

/-- C1, evaluated on the code: an ad created with `ttlMinutes = 153722868` (its TTL in
nanoseconds exceeds `int64`, so the duration wraps to a negative value) is stored, active,
has the placement asked for and `now <= createdAt + ttlMinutes` minutes, yet the listing
made at its creation time is empty. -/
theorem list_omits_unexpired_long_ttl_ad :
    ∃ r c, service.CreateAd NewAdRepository adLong "id-1" 1000 1000 = (r, .ok c) ∧
      r.ads.lookup "id-1" = some c ∧ c.Status = StatusActive ∧ c.Placement = HomeScreen ∧
      c.TTLMinutes = 153722868 ∧ 1000 ≤ c.CreatedAt + c.TTLMinutes * Minute ∧
      ttlDuration c.TTLMinutes = -9223371993709551616 ∧
      r.ListEligibleActiveAdsByPlacement HomeScreen 1000 = (r, .ok []) := by
  refine ⟨_, _, service_create_eq _ _ _ _ _, ?_, ?_, ?_, ?_, ?_, ?_, ?_⟩
  · exact AList.lookup_insert _
  · rfl
  · rfl
  · rfl
  · decide
  · decide
  · rw [list_eq_filter]
    have h : List.filter (eligible HomeScreen 1000) (List.map (fun e => e.snd)
        (adRepository.mk (AList.insert "id-1" (stamped adLong "id-1" 1000 1000)
          NewAdRepository.ads)).ads.entries) = [] := by decide
    rw [h]

/-- C2, the claim as stated fails: an ad created with `ttlMinutes = 30` at time `0` is
still in the listing made exactly 30 minutes later (`now = createdAt + 30` minutes,
which is a time with `now >= createdAt + 30` minutes). -/
theorem ttl30_still_listed_at_expiry_instant :
    ∃ r c, service.CreateAd NewAdRepository ad30 "id-1" 0 0 = (r, .ok c) ∧
      c.CreatedAt + 30 * Minute ≤ 1800000000000 ∧
      ∃ ads, service.ListEligibleActiveAdsByPlacement r HomeScreen 1800000000000 = (r, .ok ads) ∧
        c ∈ ads := by
  refine ⟨_, _, service_create_eq _ _ _ _ _, by decide, _, service_list_eq _ _ _, ?_⟩
  decide

/-- C2, amended: an ad created through `service.CreateAd` with `ttlMinutes = 30` and never
deactivated is in the listing of its placement at its creation time and at every time
`now <= createdAt + 30` minutes, is absent from it at every time
`now > createdAt + 30` minutes, and `GetAd` on its id still succeeds and returns it with
`status = active`, whatever calls (with fresh generated ids) were made in between. -/
theorem ttl30_listed_until_expiry (r : adRepository) (ad : Ad) (uid : String) (t1 t2 : Int)
    (ops : List Op) (httl : ad.TTLMinutes = 30)
    (hf : freshIds (service.CreateAd r ad uid t1 t2).1 ops = true)
    (hd : neverDeactivates uid ops = true) :
    ∃ c, (service.CreateAd r ad uid t1 t2).2 = .ok c ∧ c.CreatedAt = t1 ∧
      (∃ ads, (service.ListEligibleActiveAdsByPlacement
          (runOps (service.CreateAd r ad uid t1 t2).1 ops) ad.Placement c.CreatedAt).2 = .ok ads ∧
        c ∈ ads) ∧
      (∀ now, now ≤ c.CreatedAt + 30 * Minute →
        ∃ ads, (service.ListEligibleActiveAdsByPlacement
          (runOps (service.CreateAd r ad uid t1 t2).1 ops) ad.Placement now).2 = .ok ads ∧
          c ∈ ads) ∧
      (∀ now, c.CreatedAt + 30 * Minute < now →
        ∃ ads, (service.ListEligibleActiveAdsByPlacement
          (runOps (service.CreateAd r ad uid t1 t2).1 ops) ad.Placement now).2 = .ok ads ∧
          c ∉ ads) ∧
      (service.GetAd (runOps (service.CreateAd r ad uid t1 t2).1 ops) uid).2 = .ok c ∧
      c.Status = StatusActive := by
  have hlook : (runOps (service.CreateAd r ad uid t1 t2).1 ops).ads.lookup uid =
      some (stamped ad uid t1 t2) := by
    rw [lookup_runOps_of_untouched _ ops uid _ hf hd]
    · rw [service_create_eq]
      exact AList.lookup_insert _
    · rw [service_create_eq]
      exact (AList.mem_insert _).2 (Or.inl rfl)
  have hdur : ttlDuration (stamped ad uid t1 t2).TTLMinutes = 30 * Minute := by
    show ttlDuration ad.TTLMinutes = 30 * Minute
    rw [httl]
    decide
  have hin : ∀ now, now ≤ t1 + 30 * Minute →
      stamped ad uid t1 t2 ∈ ((runOps (service.CreateAd r ad uid t1 t2).1 ops).ads.entries.map
        (fun e => e.2)).filter (eligible ad.Placement now) := by
    intro now hnow
    rw [List.mem_filter, mem_values_iff, eligible_iff, hdur]
    exact ⟨⟨uid, hlook⟩, rfl, rfl, fun _ => hnow⟩
  refine ⟨stamped ad uid t1 t2, by rw [service_create_eq], rfl, ?_, ?_, ?_, ?_, rfl⟩
  · refine ⟨_, by rw [service_list_eq]; rfl, hin t1 ?_⟩
    show t1 ≤ t1 + 30 * Minute
    unfold Minute
    omega
  · intro now hnow
    exact ⟨_, by rw [service_list_eq], hin now hnow⟩
  · intro now hnow
    refine ⟨_, by rw [service_list_eq], ?_⟩
    rw [List.mem_filter, eligible_iff, hdur]
    rintro ⟨-, -, -, h3⟩
    have hpos : (stamped ad uid t1 t2).TTLMinutes > 0 := by
      show ad.TTLMinutes > 0
      omega
    have h4 : now ≤ t1 + 30 * Minute := h3 hpos
    have h5 : t1 + 30 * Minute < now := hnow
    omega
  · rw [service_get_eq, index_of_lookup hlook, if_neg (stamped_ne_zero _ _ _ _)]

/-- C2, amended, at a concrete session. -/
theorem ttl30_listed_until_expiry_witness :
    ad30.TTLMinutes = 30 ∧
    freshIds (service.CreateAd NewAdRepository ad30 "id-1" 0 5).1 sampleOps = true ∧
    neverDeactivates "id-1" sampleOps = true ∧
    ∃ c, (service.CreateAd NewAdRepository ad30 "id-1" 0 5).2 = .ok c ∧ c.CreatedAt = 0 ∧
      (∃ ads, (service.ListEligibleActiveAdsByPlacement
          (runOps (service.CreateAd NewAdRepository ad30 "id-1" 0 5).1 sampleOps)
          ad30.Placement c.CreatedAt).2 = .ok ads ∧ c ∈ ads) ∧
      (∀ now, now ≤ c.CreatedAt + 30 * Minute →
        ∃ ads, (service.ListEligibleActiveAdsByPlacement
          (runOps (service.CreateAd NewAdRepository ad30 "id-1" 0 5).1 sampleOps)
          ad30.Placement now).2 = .ok ads ∧ c ∈ ads) ∧
      (∀ now, c.CreatedAt + 30 * Minute < now →
        ∃ ads, (service.ListEligibleActiveAdsByPlacement
          (runOps (service.CreateAd NewAdRepository ad30 "id-1" 0 5).1 sampleOps)
          ad30.Placement now).2 = .ok ads ∧ c ∉ ads) ∧
      (service.GetAd (runOps (service.CreateAd NewAdRepository ad30 "id-1" 0 5).1 sampleOps)
        "id-1").2 = .ok c ∧
      c.Status = StatusActive :=
  ⟨rfl, by decide, by decide,
    ttl30_listed_until_expiry NewAdRepository ad30 "id-1" 0 5 sampleOps rfl (by decide)
      (by decide)⟩

/-- C3: whatever the store and the input ad, `service.CreateAd` returns a record `c`
stored under the generated id, and `GetAd(c.id)` made right after succeeds and returns
exactly `c`, whose status is `active`. -/
theorem get_after_create (r : adRepository) (ad : Ad) (uid : String) (t1 t2 : Int) :
    ∃ r' c, service.CreateAd r ad uid t1 t2 = (r', .ok c) ∧ c.ID = uid ∧
      service.GetAd r' c.ID = (r', .ok c) ∧ c.Status = StatusActive := by
  refine ⟨_, _, service_create_eq _ _ _ _ _, rfl, ?_, rfl⟩
  show service.GetAd _ uid = _
  rw [service_get_eq, index_insert_self, if_neg (stamped_ne_zero _ _ _ _)]

/-- C4: in every store state the service reaches from the empty store, `DeactivateAd(id)`
fails with the not-found error (and changes nothing) when no record is stored under `id`;
when one is, it succeeds and returns a record with that id and `status = inactive`, a
`GetAd(id)` made afterwards returns that same inactive record, and no listing made
afterwards holds a record with that id. -/
theorem deactivate_contract (ops : List Op) (id : String) (now : Int) :
    (id ∉ (runOps NewAdRepository ops).ads →
      service.DeactivateAd (runOps NewAdRepository ops) id now =
        (runOps NewAdRepository ops, .error "ad not found")) ∧
    (id ∈ (runOps NewAdRepository ops).ads →
      ∃ r' c, service.DeactivateAd (runOps NewAdRepository ops) id now = (r', .ok c) ∧
        c.ID = id ∧ c.Status = StatusInactive ∧
        service.GetAd r' id = (r', .ok c) ∧
        ∀ p t, ∃ ads, service.ListEligibleActiveAdsByPlacement r' p t = (r', .ok ads) ∧
          ∀ a ∈ ads, a.ID ≠ id) := by
  have hinv : StoreInv (runOps NewAdRepository ops) := storeInv_runOps storeInv_new ops
  generalize runOps NewAdRepository ops = r at hinv
  constructor
  · intro hmem
    rw [service_deactivate_eq, if_pos (index_of_not_mem hmem)]
  · intro hmem
    obtain ⟨a, ha⟩ := Option.isSome_iff_exists.1 (AList.lookup_isSome.2 hmem)
    have hidx : r.index id = a := index_of_lookup ha
    have hz : r.index id ≠ Ad.zero := hidx ▸ ne_zero_of_storeInv hinv ha
    have hinv' : StoreInv ⟨r.ads.insert id (retired (r.index id) now)⟩ :=
      storeInv_insert hinv id _ (by rw [hidx]; exact (hinv id a ha).1) (Or.inr rfl)
    refine ⟨_, _, by rw [service_deactivate_eq, if_neg hz], ?_, rfl, ?_, ?_⟩
    · rw [hidx]
      exact (hinv id a ha).1
    · rw [service_get_eq, index_insert_self, if_neg (retired_ne_zero _ _)]
    · intro p t
      refine ⟨_, service_list_eq _ _ _, ?_⟩
      intro b hb hbid
      rw [List.mem_filter, mem_values_iff, eligible_iff] at hb
      obtain ⟨⟨k, hk⟩, hact, -, -⟩ := hb
      have hkid : k = id := by rw [← (hinv' k b hk).1, hbid]
      subst hkid
      have hk' : AList.lookup k (r.ads.insert k (retired (r.index k) now)) = some b := hk
      rw [AList.lookup_insert] at hk'
      cases hk'
      revert hact
      simp [retired, StatusActive, StatusInactive]

/-- C4 at a concrete session: an unknown id and a known one. -/
theorem deactivate_contract_witness :
    "id-7" ∉ (runOps NewAdRepository (.create ad30 "id-1" 0 5 :: sampleOps)).ads ∧
    service.DeactivateAd (runOps NewAdRepository (.create ad30 "id-1" 0 5 :: sampleOps))
        "id-7" 20 =
      (runOps NewAdRepository (.create ad30 "id-1" 0 5 :: sampleOps), .error "ad not found") ∧
    "id-1" ∈ (runOps NewAdRepository (.create ad30 "id-1" 0 5 :: sampleOps)).ads ∧
    ∃ r' c, service.DeactivateAd (runOps NewAdRepository (.create ad30 "id-1" 0 5 :: sampleOps))
        "id-1" 20 = (r', .ok c) ∧
      c.ID = "id-1" ∧ c.Status = StatusInactive ∧ service.GetAd r' "id-1" = (r', .ok c) ∧
      ∀ p t, ∃ ads, service.ListEligibleActiveAdsByPlacement r' p t = (r', .ok ads) ∧
        ∀ a ∈ ads, a.ID ≠ "id-1" :=
  ⟨by decide,
    (deactivate_contract (.create ad30 "id-1" 0 5 :: sampleOps) "id-7" 20).1 (by decide),
    by decide,
    (deactivate_contract (.create ad30 "id-1" 0 5 :: sampleOps) "id-1" 20).2 (by decide)⟩

/-- C5: status is monotonic. In every store state (so in every state reachable from the
empty store), if the record stored under `id` is inactive, then after any further
sequence of `CreateAd` (with fresh generated ids), `GetAd`, `DeactivateAd` and listing
calls the record stored under `id` is still inactive. -/
theorem inactive_is_permanent (r : adRepository) (ops : List Op) (id : String) (a : Ad)
    (hf : freshIds r ops = true) (h : r.ads.lookup id = some a)
    (hs : a.Status = StatusInactive) :
    ∃ b, (runOps r ops).ads.lookup id = some b ∧ b.Status = StatusInactive := by
  induction ops generalizing r a with
  | nil => exact ⟨a, h, hs⟩
  | cons op ops ih =>
    obtain ⟨hf1, hf2⟩ := freshIds_cons hf
    obtain ⟨b, hb, hbs⟩ := inactive_call r op id a h hs hf1
    exact ih (op.call r).1 b hf2 hb hbs

/-- C5 at a concrete session: the ad `"id-1"` is deactivated, then further calls follow. -/
theorem inactive_is_permanent_witness :
    freshIds (runOps NewAdRepository [.create ad30 "id-1" 0 5, .deactivate "id-1" 6])
      sampleOps = true ∧
    (runOps NewAdRepository [.create ad30 "id-1" 0 5, .deactivate "id-1" 6]).ads.lookup "id-1" =
      some (retired (stamped ad30 "id-1" 0 5) 6) ∧
    (retired (stamped ad30 "id-1" 0 5) 6).Status = StatusInactive ∧
    ∃ b, (runOps (runOps NewAdRepository [.create ad30 "id-1" 0 5, .deactivate "id-1" 6])
        sampleOps).ads.lookup "id-1" = some b ∧ b.Status = StatusInactive :=
  ⟨by decide, by decide, rfl,
    inactive_is_permanent _ sampleOps "id-1" (retired (stamped ad30 "id-1" 0 5) 6)
      (by decide) (by decide) rfl⟩

/-- C6: an ad created through `service.CreateAd` with `ttlMinutes = 0` and never
deactivated is in the listing of its placement at every evaluation time `now`, whatever
calls (with fresh generated ids) were made in between. -/
theorem ttl0_always_listed (r : adRepository) (ad : Ad) (uid : String) (t1 t2 : Int)
    (ops : List Op) (now : Int) (httl : ad.TTLMinutes = 0)
    (hf : freshIds (service.CreateAd r ad uid t1 t2).1 ops = true)
    (hd : neverDeactivates uid ops = true) :
    ∃ c ads, (service.CreateAd r ad uid t1 t2).2 = .ok c ∧
      (service.ListEligibleActiveAdsByPlacement
        (runOps (service.CreateAd r ad uid t1 t2).1 ops) ad.Placement now).2 = .ok ads ∧
      c ∈ ads := by
  have hlook : (runOps (service.CreateAd r ad uid t1 t2).1 ops).ads.lookup uid =
      some (stamped ad uid t1 t2) := by
    rw [lookup_runOps_of_untouched _ ops uid _ hf hd]
    · rw [service_create_eq]
      exact AList.lookup_insert _
    · rw [service_create_eq]
      exact (AList.mem_insert _).2 (Or.inl rfl)
  refine ⟨stamped ad uid t1 t2, _, by rw [service_create_eq], by rw [service_list_eq], ?_⟩
  rw [List.mem_filter, mem_values_iff, eligible_iff]
  refine ⟨⟨uid, hlook⟩, rfl, rfl, fun hpos => ?_⟩
  have hpos' : ad.TTLMinutes > 0 := hpos
  omega

/-- C6 at a concrete session, a century (in nanoseconds) after the creation. -/
theorem ttl0_always_listed_witness :
    ad0.TTLMinutes = 0 ∧
    freshIds (service.CreateAd NewAdRepository ad0 "id-1" 0 5).1 sampleOps = true ∧
    neverDeactivates "id-1" sampleOps = true ∧
    ∃ c ads, (service.CreateAd NewAdRepository ad0 "id-1" 0 5).2 = .ok c ∧
      (service.ListEligibleActiveAdsByPlacement
        (runOps (service.CreateAd NewAdRepository ad0 "id-1" 0 5).1 sampleOps) ad0.Placement
        3155760000000000000).2 = .ok ads ∧
      c ∈ ads :=
  ⟨rfl, by decide, by decide,
    ttl0_always_listed NewAdRepository ad0 "id-1" 0 5 sampleOps 3155760000000000000 rfl
      (by decide) (by decide)⟩

/-- C7, evaluated on the code: when the two clock readings of `service.CreateAd` differ
(here `1000` and `1001`), the record created with `ttlMinutes = 30` has
`deactivateAt = 1800000001001`, one nanosecond past `createdAt + 30` minutes. -/
theorem create_deactivateAt_from_second_clock_reading :
    ∃ r c, service.CreateAd NewAdRepository ad30 "id-1" 1000 1001 = (r, .ok c) ∧
      r.ads.lookup "id-1" = some c ∧ c.TTLMinutes = 30 ∧ c.CreatedAt = 1000 ∧
      c.CreatedAt + c.TTLMinutes * Minute = 1800000001000 ∧
      c.DeactivateAt = 1800000001001 ∧
      c.DeactivateAt ≠ c.CreatedAt + c.TTLMinutes * Minute := by
  refine ⟨_, _, service_create_eq _ _ _ _ _, AList.lookup_insert _, rfl, rfl, ?_, ?_, ?_⟩ <;>
    decide

/-- C8: `DeactivateAd(id)` leaves the id, title, image URL, placement, creation time and
TTL of the record stored under `id` as they were, leaves every record stored under
another id unchanged and leaves the set of stored ids unchanged; `GetAd` and the listing
return the store they were given. -/
theorem deactivate_frame (r : adRepository) (id : String) (now : Int) :
    (∀ a, r.ads.lookup id = some a →
      ∃ b, (service.DeactivateAd r id now).1.ads.lookup id = some b ∧
        b.ID = a.ID ∧ b.Title = a.Title ∧ b.ImageUrl = a.ImageUrl ∧
        b.Placement = a.Placement ∧ b.CreatedAt = a.CreatedAt ∧
        b.TTLMinutes = a.TTLMinutes) ∧
    (∀ k, k ≠ id → (service.DeactivateAd r id now).1.ads.lookup k = r.ads.lookup k) ∧
    (∀ k, k ∈ (service.DeactivateAd r id now).1.ads ↔ k ∈ r.ads) ∧
    (∀ k, (service.GetAd r k).1 = r) ∧
    (∀ p t, (service.ListEligibleActiveAdsByPlacement r p t).1 = r) := by
  refine ⟨?_, ?_, ?_, ?_, ?_⟩
  · intro a ha
    rw [service_deactivate_eq]
    split
    · exact ⟨a, ha, rfl, rfl, rfl, rfl, rfl, rfl⟩
    · refine ⟨_, AList.lookup_insert _, ?_⟩
      rw [index_of_lookup ha]
      exact ⟨rfl, rfl, rfl, rfl, rfl, rfl⟩
  · intro k hk
    rw [service_deactivate_eq]
    split
    · rfl
    · exact AList.lookup_insert_ne hk
  · intro k
    rw [service_deactivate_eq]
    split
    · exact Iff.rfl
    · rename_i hz
      have hmem : id ∈ r.ads := AList.lookup_isSome.1 (by rw [lookup_of_index_ne_zero hz]; rfl)
      constructor
      · intro h
        rcases (AList.mem_insert _).1 h with h | h
        · exact h ▸ hmem
        · exact h
      · intro h
        exact (AList.mem_insert _).2 (Or.inr h)
  · intro k
    rw [service_get_eq]
    split <;> rfl
  · intro p t
    rw [service_list_eq]

/-- C8 at a concrete store holding `"id-1"` and `"id-2"`. -/
theorem deactivate_frame_witness :
    (runOps NewAdRepository [.create ad30 "id-1" 0 5, .create ad0 "id-2" 7 8]).ads.lookup "id-1" =
      some (stamped ad30 "id-1" 0 5) ∧
    (∃ b, (service.DeactivateAd
          (runOps NewAdRepository [.create ad30 "id-1" 0 5, .create ad0 "id-2" 7 8])
          "id-1" 20).1.ads.lookup "id-1" = some b ∧
        b.ID = (stamped ad30 "id-1" 0 5).ID ∧ b.Title = (stamped ad30 "id-1" 0 5).Title ∧
        b.ImageUrl = (stamped ad30 "id-1" 0 5).ImageUrl ∧
        b.Placement = (stamped ad30 "id-1" 0 5).Placement ∧
        b.CreatedAt = (stamped ad30 "id-1" 0 5).CreatedAt ∧
        b.TTLMinutes = (stamped ad30 "id-1" 0 5).TTLMinutes) ∧
    "id-2" ≠ "id-1" ∧
    (service.DeactivateAd
        (runOps NewAdRepository [.create ad30 "id-1" 0 5, .create ad0 "id-2" 7 8])
        "id-1" 20).1.ads.lookup "id-2" =
      (runOps NewAdRepository [.create ad30 "id-1" 0 5, .create ad0 "id-2" 7 8]).ads.lookup
        "id-2" :=
  ⟨by decide,
    (deactivate_frame _ "id-1" 20).1 _ (by decide),
    by decide,
    (deactivate_frame _ "id-1" 20).2.1 "id-2" (by decide)⟩

/-! ## Lemmas on the rate limiter -/

theorem getVisitor_limiter (rl : RateLimiter) (k : String) (now : Int) :
    (rl.getVisitor k now).2 =
      match rl.visitors.lookup k with
      | none => NewLimiter rl.rate rl.burst now
      | some v => v.limiter := by
  unfold RateLimiter.getVisitor
  cases rl.visitors.lookup k <;> rfl

theorem getVisitor_rate (rl : RateLimiter) (k : String) (now : Int) :
    (rl.getVisitor k now).1.rate = rl.rate ∧ (rl.getVisitor k now).1.burst = rl.burst := by
  unfold RateLimiter.getVisitor
  cases rl.visitors.lookup k <;> exact ⟨rfl, rfl⟩

theorem getVisitor_lookup_ne (rl : RateLimiter) (k k' : String) (now : Int) (h : k' ≠ k) :
    (rl.getVisitor k now).1.visitors.lookup k' = rl.visitors.lookup k' := by
  unfold RateLimiter.getVisitor
  cases rl.visitors.lookup k <;> exact AList.lookup_insert_ne h

theorem middleware_lookup_self (rl : RateLimiter) (k : String) (tSeen tAllow : Int) :
    (rl.Middleware k tSeen tAllow).1.visitors.lookup k =
      some ⟨((rl.getVisitor k tSeen).2.Allow tAllow).1, tSeen⟩ := by
  unfold RateLimiter.Middleware
  exact AList.lookup_insert _

theorem middleware_lookup_ne (rl : RateLimiter) (k k' : String) (tSeen tAllow : Int)
    (h : k' ≠ k) :
    (rl.Middleware k tSeen tAllow).1.visitors.lookup k' = rl.visitors.lookup k' := by
  unfold RateLimiter.Middleware
  show AList.lookup k' (AList.insert k _ _) = _
  rw [AList.lookup_insert_ne h, getVisitor_lookup_ne rl k k' tSeen h]

theorem middleware_rate (rl : RateLimiter) (k : String) (tSeen tAllow : Int) :
    (rl.Middleware k tSeen tAllow).1.rate = rl.rate ∧
      (rl.Middleware k tSeen tAllow).1.burst = rl.burst := by
  unfold RateLimiter.Middleware
  exact getVisitor_rate rl k tSeen

/-- A check at the instant of the last refill, on a bucket holding `m` whole tokens. -/
theorem allow_same_instant (l : Limiter) (t : Int) (m : Nat) (hlast : l.lastRefill = t)
    (htok : l.tokens = (m : ℚ)) (hcap : (m : ℚ) ≤ (l.burst : ℚ)) :
    l.Allow t =
      if 1 ≤ m then ({ l with tokens := (m : ℚ) - 1, lastRefill := t }, true) else (l, false) := by
  unfold Limiter.Allow
  simp only [hlast, htok, sub_self, Int.cast_zero, zero_div, zero_mul, add_zero,
    min_eq_right hcap, Nat.one_le_cast]

/-- With `m` whole tokens in the bucket of `k` and no time passing, the next `m` checks
are allowed and the one after them is rejected. -/
theorem runChecks_same_instant (m : Nat) (rl : RateLimiter) (k : String) (t : Int)
    (hlast : (rl.getVisitor k t).2.lastRefill = t)
    (htok : (rl.getVisitor k t).2.tokens = (m : ℚ))
    (hcap : (m : ℚ) ≤ ((rl.getVisitor k t).2.burst : ℚ)) :
    (runChecks rl (List.replicate (m + 1) ⟨k, t, t⟩)).2 =
      List.replicate m (k, true) ++ [(k, false)] := by
  induction m generalizing rl with
  | zero =>
    have hallow := allow_same_instant _ t 0 hlast htok hcap
    simp only [List.replicate, runChecks, RateLimiter.Middleware, hallow]
    simp
  | succ m ih =>
    have hallow := allow_same_instant _ t (m + 1) hlast htok hcap
    have hres : (rl.Middleware k t t).2 = true := by
      simp only [RateLimiter.Middleware, hallow]
      simp
    have hnext2 : ((rl.Middleware k t t).1.getVisitor k t).2 =
        { (rl.getVisitor k t).2 with tokens := ((m + 1 : Nat) : ℚ) - 1, lastRefill := t } := by
      rw [getVisitor_limiter, middleware_lookup_self, hallow]
      simp
    have ih' := ih (rl.Middleware k t t).1 (by rw [hnext2]) (by rw [hnext2]; push_cast; ring)
      (by
        rw [hnext2]
        have : ((m : ℚ)) ≤ ((m + 1 : Nat) : ℚ) := by push_cast; linarith
        exact le_trans this hcap)
    rw [List.replicate_succ, runChecks, hres]
    show (k, true) :: (runChecks (rl.Middleware k t t).1 (List.replicate (m + 1) ⟨k, t, t⟩)).2 = _
    rw [ih', List.replicate_succ]
    rfl

/-- Two limiter states that hold the same entry under `k` and the same configuration
answer a check for `k` alike and still agree on `k` afterwards. -/
theorem middleware_agree (rl rl' : RateLimiter) (k : String) (tSeen tAllow : Int)
    (hv : rl.visitors.lookup k = rl'.visitors.lookup k) (hr : rl.rate = rl'.rate)
    (hb : rl.burst = rl'.burst) :
    (rl.Middleware k tSeen tAllow).2 = (rl'.Middleware k tSeen tAllow).2 ∧
      (rl.Middleware k tSeen tAllow).1.visitors.lookup k =
        (rl'.Middleware k tSeen tAllow).1.visitors.lookup k := by
  have hlim : (rl.getVisitor k tSeen).2 = (rl'.getVisitor k tSeen).2 := by
    rw [getVisitor_limiter, getVisitor_limiter, hv, hr, hb]
  constructor
  · show ((rl.getVisitor k tSeen).2.Allow tAllow).2 = ((rl'.getVisitor k tSeen).2.Allow tAllow).2
    rw [hlim]
  · rw [middleware_lookup_self, middleware_lookup_self, hlim]

theorem runChecks_agree (cs : List Check) (rl rl' : RateLimiter) (k : String)
    (hv : rl.visitors.lookup k = rl'.visitors.lookup k) (hr : rl.rate = rl'.rate)
    (hb : rl.burst = rl'.burst) (hcs : ∀ c ∈ cs, c.ip = k) :
    (runChecks rl cs).2 = (runChecks rl' cs).2 := by
  induction cs generalizing rl rl' with
  | nil => rfl
  | cons c cs ih =>
    have hc : c.ip = k := hcs c (List.mem_cons_self _ _)
    have hstep := middleware_agree rl rl' c.ip c.tSeen c.tAllow (hc ▸ hv) hr hb
    have hrest := ih (rl.Middleware c.ip c.tSeen c.tAllow).1 (rl'.Middleware c.ip c.tSeen c.tAllow).1
      (hc ▸ hstep.2)
      (by rw [(middleware_rate rl _ _ _).1, (middleware_rate rl' _ _ _).1, hr])
      (by rw [(middleware_rate rl _ _ _).2, (middleware_rate rl' _ _ _).2, hb])
      (fun c' hc' => hcs c' (List.mem_cons_of_mem _ hc'))
    simp only [runChecks, hstep.1, hrest]

/-- The outcomes for `k` in a sequence of checks are the outcomes of the checks for `k`
alone. -/
theorem outcomes_filter (cs : List Check) (rl : RateLimiter) (k : String) :
    (runChecks rl cs).2.filter (fun o => decide (o.1 = k)) =
      (runChecks rl (cs.filter (fun c => decide (c.ip = k)))).2 := by
  induction cs generalizing rl with
  | nil => rfl
  | cons c cs ih =>
    by_cases hc : c.ip = k
    · subst hc
      simp only [runChecks, List.filter_cons, decide_True, if_true]
      rw [ih]
    · simp only [runChecks, List.filter_cons, hc, decide_False, Bool.false_eq_true, if_false]
      rw [ih]
      apply runChecks_agree _ _ _ k
      · exact middleware_lookup_ne rl c.ip k c.tSeen c.tAllow (Ne.symm hc)
      · exact (middleware_rate rl _ _ _).1
      · exact (middleware_rate rl _ _ _).2
      · intro c' hc'
        exact of_decide_eq_true (List.mem_filter.1 hc').2

/-! ## The claims on the rate limiter -/

/-- C9: for a rate limiter with burst `b` and a key `k` it has never seen, `b` admission
checks for `k` made at one instant `t` are all allowed and the `(b+1)`-th check at that
instant is rejected (the refill rate plays no role while no time passes). -/
theorem burst_allowed_then_rejected (rl : RateLimiter) (k : String) (t : Int) (b : Nat)
    (hburst : rl.burst = (b : Int)) (hk : k ∉ rl.visitors) :
    (runChecks rl (List.replicate (b + 1) ⟨k, t, t⟩)).2 =
      List.replicate b (k, true) ++ [(k, false)] := by
  have hlim : (rl.getVisitor k t).2 = NewLimiter rl.rate rl.burst t := by
    rw [getVisitor_limiter, AList.lookup_eq_none.2 hk]
  apply runChecks_same_instant b rl k t
  · rw [hlim]
    rfl
  · rw [hlim]
    simp [NewLimiter, hburst]
  · rw [hlim]
    simp [NewLimiter, hburst]

/-- C9 for `NewRateLimiter(10, 20)`: 20 checks allowed, the 21st rejected. -/
theorem burst_allowed_then_rejected_witness :
    (NewRateLimiter 10 20).burst = ((20 : Nat) : Int) ∧
    "10.0.0.1" ∉ (NewRateLimiter 10 20).visitors ∧
    (runChecks (NewRateLimiter 10 20) (List.replicate (20 + 1) ⟨"10.0.0.1", 1000, 1000⟩)).2 =
      List.replicate 20 ("10.0.0.1", true) ++ [("10.0.0.1", false)] :=
  ⟨rfl, by decide,
    burst_allowed_then_rejected (NewRateLimiter 10 20) "10.0.0.1" 1000 20 rfl (by decide)⟩

/-- C10: for distinct keys `k1` and `k2` and every rate limiter state, an admission check
for `k1` leaves the visitor entry stored under `k2` as it is, and the outcomes of the
checks for `k2` in a sequence of checks are the same as in that sequence with the checks
for `k1` taken out. -/
theorem keys_do_not_interfere (rl : RateLimiter) (k1 k2 : String) (h : k1 ≠ k2) :
    (∀ tSeen tAllow,
      (rl.Middleware k1 tSeen tAllow).1.visitors.lookup k2 = rl.visitors.lookup k2) ∧
    (∀ cs : List Check,
      (runChecks rl cs).2.filter (fun o => decide (o.1 = k2)) =
        (runChecks rl (cs.filter (fun c => decide (c.ip ≠ k1)))).2.filter
          (fun o => decide (o.1 = k2))) := by
  constructor
  · intro tSeen tAllow
    exact middleware_lookup_ne rl k1 k2 tSeen tAllow (Ne.symm h)
  · intro cs
    rw [outcomes_filter, outcomes_filter, List.filter_filter]
    congr 2
    apply List.filter_congr
    intro c _
    by_cases hc : c.ip = k2
    · have h21 : ¬ k2 = k1 := fun e => h e.symm
      simp [hc, h21]
    · simp [hc]

/-- C10 for the clients `10.0.0.1` and `10.0.0.2` on a limiter with burst 2 that has
already seen `10.0.0.2`. -/
theorem keys_do_not_interfere_witness :
    "10.0.0.1" ≠ "10.0.0.2" ∧
    ((runChecks (NewRateLimiter 10 2) [⟨"10.0.0.2", 0, 0⟩]).1.Middleware "10.0.0.1" 5 6).1.visitors.lookup
        "10.0.0.2" =
      (runChecks (NewRateLimiter 10 2) [⟨"10.0.0.2", 0, 0⟩]).1.visitors.lookup "10.0.0.2" ∧
    (runChecks (runChecks (NewRateLimiter 10 2) [⟨"10.0.0.2", 0, 0⟩]).1 sampleChecks).2.filter
        (fun o => decide (o.1 = "10.0.0.2")) =
      (runChecks (runChecks (NewRateLimiter 10 2) [⟨"10.0.0.2", 0, 0⟩]).1
        (sampleChecks.filter (fun c => decide (c.ip ≠ "10.0.0.1")))).2.filter
          (fun o => decide (o.1 = "10.0.0.2")) :=
  ⟨by decide,
    (keys_do_not_interfere _ "10.0.0.1" "10.0.0.2" (by decide)).1 5 6,
    (keys_do_not_interfere _ "10.0.0.1" "10.0.0.2" (by decide)).2 sampleChecks⟩

theorem allow_rejected (l : Limiter) (now : Int) (h : (l.Allow now).2 = false) :
    (l.Allow now).1 = l := by
  unfold Limiter.Allow at h ⊢
  dsimp only at h ⊢
  split_ifs at h ⊢ with hc
  rfl

/-- Five nanoseconds refill an empty bucket of rate 10 by less than one token. -/
theorem allow_spent :
    Limiter.Allow { limit := 10, burst := 1, tokens := 0, lastRefill := 0 } 5 =
      ({ limit := 10, burst := 1, tokens := 0, lastRefill := 0 }, false) := by
  unfold Limiter.Allow
  norm_num

theorem spentLimiter_lookup :
    spentLimiter.visitors.lookup "10.0.0.1" =
      some { limiter := { limit := 10, burst := 1, tokens := 0, lastRefill := 0 },
             lastSeen := 0 } := by
  rfl

theorem spentLimiter_reached :
    (runChecks (NewRateLimiter 10 1) [⟨"10.0.0.1", 0, 0⟩]) = (spentLimiter, [("10.0.0.1", true)]) := by
  simp [runChecks, RateLimiter.Middleware, RateLimiter.getVisitor, NewRateLimiter, NewLimiter,
    Limiter.Allow, spentLimiter, AList.lookup_empty, AList.insert_empty, AList.insert_singleton_eq]

theorem middleware_result (rl : RateLimiter) (k : String) (tSeen tAllow : Int) :
    (rl.Middleware k tSeen tAllow).2 = ((rl.getVisitor k tSeen).2.Allow tAllow).2 := rfl

theorem spentLimiter_rejects : (spentLimiter.Middleware "10.0.0.1" 5 5).2 = false := by
  rw [middleware_result, getVisitor_limiter, spentLimiter_lookup]
  show (Limiter.Allow _ 5).2 = false
  rw [allow_spent]

theorem spentLimiter_after :
    (spentLimiter.Middleware "10.0.0.1" 5 5).1.visitors.lookup "10.0.0.1" =
      some { limiter := { limit := 10, burst := 1, tokens := 0, lastRefill := 0 },
             lastSeen := 5 } := by
  rw [middleware_lookup_self, getVisitor_limiter, spentLimiter_lookup]
  show some (visitor.mk (Limiter.Allow _ 5).1 5) = _
  rw [allow_spent]

/-! ## The claims on the rate limiter, continued -/

/-- C11, the claim as stated fails: the client `10.0.0.1` has an empty bucket and
`lastSeen = 0`; its request at time `5` is rejected, and afterwards the entry stored for it
has `lastSeen = 5`, so it is not the entry that was stored before the check. -/
theorem rejected_check_moves_lastSeen :
    ∃ v w, spentLimiter.visitors.lookup "10.0.0.1" = some v ∧
      (spentLimiter.Middleware "10.0.0.1" 5 5).2 = false ∧
      (spentLimiter.Middleware "10.0.0.1" 5 5).1.visitors.lookup "10.0.0.1" = some w ∧
      v.lastSeen = 0 ∧ w.lastSeen = 5 ∧ w ≠ v := by
  refine ⟨_, _, spentLimiter_lookup, spentLimiter_rejects, spentLimiter_after, rfl, rfl, ?_⟩
  intro h
  have h2 := congrArg visitor.lastSeen h
  revert h2
  decide

/-- C11, amended: for every rate limiter state and every key `k` stored in it, an admission
check for `k` that is rejected leaves the bucket stored for `k` (its tokens and its
`lastRefill`, with rate and capacity) exactly as it was, and sets the `lastSeen` of the
entry to the clock reading of the check. -/
theorem rejected_check_keeps_bucket (rl : RateLimiter) (k : String) (tSeen tAllow : Int)
    (v : visitor) (hv : rl.visitors.lookup k = some v)
    (hrej : (rl.Middleware k tSeen tAllow).2 = false) :
    (rl.Middleware k tSeen tAllow).1.visitors.lookup k =
      some { limiter := v.limiter, lastSeen := tSeen } := by
  have hlim : (rl.getVisitor k tSeen).2 = v.limiter := by
    rw [getVisitor_limiter, hv]
  rw [middleware_result, hlim] at hrej
  rw [middleware_lookup_self, hlim, allow_rejected _ _ hrej]

/-- C11, amended, for the client `10.0.0.1` with an empty bucket. -/
theorem rejected_check_keeps_bucket_witness :
    spentLimiter.visitors.lookup "10.0.0.1" =
      some { limiter := { limit := 10, burst := 1, tokens := 0, lastRefill := 0 },
             lastSeen := 0 } ∧
    (spentLimiter.Middleware "10.0.0.1" 5 5).2 = false ∧
    (spentLimiter.Middleware "10.0.0.1" 5 5).1.visitors.lookup "10.0.0.1" =
      some { limiter := { limit := 10, burst := 1, tokens := 0, lastRefill := 0 },
             lastSeen := 5 } :=
  ⟨rfl, spentLimiter_rejects,
    rejected_check_keeps_bucket spentLimiter "10.0.0.1" 5 5 _ rfl spentLimiter_rejects⟩

/-! ## Lemmas on the request and the handler -/

/-- What `Validate` checks: title and image URL are non-empty and the TTL, when the
request has one, is not negative. -/
theorem validate_none_iff (req : createAdRequest) :
    req.Validate = none ↔
      req.Title ≠ "" ∧ req.ImageURL ≠ "" ∧ ∀ ttl, req.TTLMinutes = some ttl → 0 ≤ ttl := by
  unfold createAdRequest.Validate
  by_cases h1 : req.Title = ""
  · simp [h1]
  · by_cases h2 : req.ImageURL = ""
    · simp [h1, h2]
    · cases h3 : req.TTLMinutes with
      | none => simp [h1, h2]
      | some ttl =>
        by_cases h4 : ttl < 0
        · simp [h1, h2, h4]
        · simp [h1, h2, h4]
          omega

/-- The `POST /adposts` branch of `ServeHTTP` on a decoded request that passes
`Validate`. -/
theorem serveHTTP_adposts (svc : Service) (r : Request) (req : createAdRequest)
    (hm : r.Method = MethodPost) (hp : r.Path = "/adposts") (hb : r.Body = .ok req)
    (hv : req.Validate = none) :
    AdsHandler.ServeHTTP svc r =
      match req.TTLMinutes with
      | none => ⟨[], .panicked "invalid memory address or nil pointer dereference"⟩
      | some ttl =>
        match svc.CreateAd ⟨"", req.Title, req.ImageURL, req.Placement, "", 0, 0, ttl⟩ with
        | .error err =>
          ⟨[.CreateAd ⟨"", req.Title, req.ImageURL, req.Placement, "", 0, 0, ttl⟩],
            .response (httpError err StatusInternalServerError)⟩
        | .ok created =>
          ⟨[.CreateAd ⟨"", req.Title, req.ImageURL, req.Placement, "", 0, 0, ttl⟩],
            .response (jsonResponse StatusCreated (.ad created))⟩ := by
  unfold AdsHandler.ServeHTTP
  simp only [hm, hp, hb, hv, and_self, if_true]

/-- Every ad that `ServeHTTP` hands to `CreateAd` has a non-empty title, a non-empty image
URL and a TTL that is not negative. -/
theorem serveHTTP_create_validated (svc : Service) (r : Request) (ad : Ad)
    (h : Call.CreateAd ad ∈ (AdsHandler.ServeHTTP svc r).calls) :
    ad.Title ≠ "" ∧ ad.ImageUrl ≠ "" ∧ 0 ≤ ad.TTLMinutes := by
  by_cases c1 : r.Method = MethodPost ∧ r.Path = "/adposts"
  · cases hb : r.Body with
    | error err =>
      unfold AdsHandler.ServeHTTP at h
      simp [c1.1, c1.2, hb] at h
    | ok req =>
      cases hval : req.Validate with
      | some err =>
        unfold AdsHandler.ServeHTTP at h
        simp [c1.1, c1.2, hb, hval] at h
      | none =>
        rw [serveHTTP_adposts svc r req c1.1 c1.2 hb hval] at h
        have hv := (validate_none_iff req).1 hval
        cases httl : req.TTLMinutes with
        | none => simp [httl] at h
        | some ttl =>
          simp only [httl] at h
          split at h <;>
          · simp only [List.mem_singleton, Call.CreateAd.injEq] at h
            subst h
            exact ⟨hv.1, hv.2.1, hv.2.2 ttl httl⟩
  · unfold AdsHandler.ServeHTTP at h
    simp only [c1, if_false] at h
    split_ifs at h <;> first
      | (split at h <;> simp at h)
      | simp at h

/-- The `GET /adspots` branch of `ServeHTTP`. -/
theorem serveHTTP_adspots (svc : Service) (r : Request) (hm : r.Method = MethodGet)
    (hp : r.Path = "/adspots") :
    AdsHandler.ServeHTTP svc r =
      if r.Query "status" ≠ "" ∧ r.Query "status" ≠ "active" then
        ⟨[], .response (httpError "status parameter must be 'active'" StatusBadRequest)⟩
      else if r.Query "placement" = "" then
        ⟨[], .response (httpError "placement parameter is required" StatusBadRequest)⟩
      else if r.Query "placement" ≠ HomeScreen ∧ r.Query "placement" ≠ RideSummary ∧
          r.Query "placement" ≠ MapView then
        ⟨[], .response (httpError "invalid placement value" StatusBadRequest)⟩
      else
        match svc.ListEligibleActiveAdsByPlacement (r.Query "placement") with
        | .error err =>
          ⟨[.ListEligibleActiveAdsByPlacement (r.Query "placement")],
            .response (httpError err StatusInternalServerError)⟩
        | .ok ads =>
          ⟨[.ListEligibleActiveAdsByPlacement (r.Query "placement")],
            .response (jsonResponse StatusOK (.ads ads))⟩ := by
  have h1 : ¬ (MethodGet = MethodPost) := by decide
  have h2 : strings.HasPrefix "/adspots" "/adposts/" = false := by decide
  unfold AdsHandler.ServeHTTP
  simp only [hm, hp, h1, h2, false_and, and_false, if_false, true_and, if_true,
    Bool.false_eq_true, and_self]

/-! ## The claims on the HTTP adapter -/

/-- C12, evaluated on the code: the create request with `placement = "banner"` passes
`Validate`, and the handler hands the service an ad whose placement is none of
`home_screen`, `ride_summary`, `map_view`; the service stores it and the answer is 201. -/
theorem create_passes_unknown_placement :
    bannerRequest.Validate = none ∧
    bannerRequest.Placement ≠ HomeScreen ∧ bannerRequest.Placement ≠ RideSummary ∧
    bannerRequest.Placement ≠ MapView ∧
    AdsHandler.ServeHTTP (serviceAt NewAdRepository "id-1" 1000 1001 0)
        (adpostsRequest bannerRequest) =
      ⟨[.CreateAd ⟨"", "Spring", "http://example.com/s.jpg", "banner", "", 0, 0, 5⟩],
        .response (jsonResponse StatusCreated
          (.ad ⟨"id-1", "Spring", "http://example.com/s.jpg", "banner", StatusActive, 1000,
            300000001001, 5⟩))⟩ := by
  refine ⟨by decide, by decide, by decide, by decide, ?_⟩
  decide

/-- C13: on `GET /adspots`, if `status` is non-empty and not `active`, or `placement` is
empty, or `placement` is none of the three placements, the handler answers with status
400 and makes no call on the service; otherwise it makes exactly one call, the listing
for that placement, and answers with status 200, content type `application/json` and the
list the service returns as body, or with status 500 when the service returns an error. -/
theorem adspots_contract (svc : Service) (r : Request) (hm : r.Method = MethodGet)
    (hp : r.Path = "/adspots") :
    (((r.Query "status" ≠ "" ∧ r.Query "status" ≠ "active") ∨ r.Query "placement" = "" ∨
        (r.Query "placement" ≠ HomeScreen ∧ r.Query "placement" ≠ RideSummary ∧
          r.Query "placement" ≠ MapView)) →
      ∃ resp, AdsHandler.ServeHTTP svc r = ⟨[], .response resp⟩ ∧ resp.status = 400) ∧
    (¬ ((r.Query "status" ≠ "" ∧ r.Query "status" ≠ "active") ∨ r.Query "placement" = "" ∨
        (r.Query "placement" ≠ HomeScreen ∧ r.Query "placement" ≠ RideSummary ∧
          r.Query "placement" ≠ MapView)) →
      (AdsHandler.ServeHTTP svc r).calls =
          [.ListEligibleActiveAdsByPlacement (r.Query "placement")] ∧
        (∀ ads, svc.ListEligibleActiveAdsByPlacement (r.Query "placement") = .ok ads →
          ∃ resp, (AdsHandler.ServeHTTP svc r).outcome = .response resp ∧
            resp.status = 200 ∧ resp.contentType = "application/json" ∧
            resp.body = .ads ads) ∧
        (∀ err, svc.ListEligibleActiveAdsByPlacement (r.Query "placement") = .error err →
          ∃ resp, (AdsHandler.ServeHTTP svc r).outcome = .response resp ∧
            resp.status = 500 ∧ resp.body = .text (err ++ "\n"))) := by
  rw [serveHTTP_adspots svc r hm hp]
  constructor
  · intro hbad
    by_cases c1 : r.Query "status" ≠ "" ∧ r.Query "status" ≠ "active"
    · rw [if_pos c1]
      exact ⟨_, rfl, rfl⟩
    · rw [if_neg c1]
      by_cases c2 : r.Query "placement" = ""
      · rw [if_pos c2]
        exact ⟨_, rfl, rfl⟩
      · rw [if_neg c2]
        have c3 : r.Query "placement" ≠ HomeScreen ∧ r.Query "placement" ≠ RideSummary ∧
            r.Query "placement" ≠ MapView := by
          rcases hbad with h | h | h
          · exact absurd h c1
          · exact absurd h c2
          · exact h
        rw [if_pos c3]
        exact ⟨_, rfl, rfl⟩
  · intro hgood
    have c1 : ¬ (r.Query "status" ≠ "" ∧ r.Query "status" ≠ "active") :=
      fun h => hgood (Or.inl h)
    have c2 : ¬ (r.Query "placement" = "") := fun h => hgood (Or.inr (Or.inl h))
    have c3 : ¬ (r.Query "placement" ≠ HomeScreen ∧ r.Query "placement" ≠ RideSummary ∧
        r.Query "placement" ≠ MapView) := fun h => hgood (Or.inr (Or.inr h))
    rw [if_neg c1, if_neg c2, if_neg c3]
    refine ⟨?_, ?_, ?_⟩
    · split <;> rfl
    · intro ads hads
      rw [hads]
      exact ⟨_, rfl, rfl, rfl, rfl⟩
    · intro err herr
      rw [herr]
      exact ⟨_, rfl, rfl, rfl⟩

/-- C13 on three requests: a bad status, a good request answered by the service over a
store holding one eligible ad, and a good request whose service call fails. -/
theorem adspots_contract_witness :
    (∃ resp, AdsHandler.ServeHTTP failingService (adspotsRequest "home_screen" "inactive") =
        ⟨[], .response resp⟩ ∧ resp.status = 400) ∧
    (∃ resp, (AdsHandler.ServeHTTP
          (serviceAt (service.CreateAd NewAdRepository ad30 "id-1" 0 5).1 "id-2" 9 9 9)
          (adspotsRequest "home_screen" "active")).outcome = .response resp ∧
        resp.status = 200 ∧ resp.contentType = "application/json" ∧
        resp.body = .ads [stamped ad30 "id-1" 0 5]) ∧
    (∃ resp, (AdsHandler.ServeHTTP failingService (adspotsRequest "ride_summary" "")).outcome =
        .response resp ∧ resp.status = 500 ∧
        resp.body = .text ("database connection failed" ++ "\n")) :=
  ⟨(adspots_contract failingService (adspotsRequest "home_screen" "inactive") rfl rfl).1
      (by decide),
    ((adspots_contract
        (serviceAt (service.CreateAd NewAdRepository ad30 "id-1" 0 5).1 "id-2" 9 9 9)
        (adspotsRequest "home_screen" "active") rfl rfl).2 (by decide)).2.1 _ rfl,
    ((adspots_contract failingService (adspotsRequest "ride_summary" "") rfl rfl).2
      (by decide)).2.2 _ rfl⟩

/-- C14, evaluated on the code: the create request without `ttlMinutes` passes `Validate`
with `TTLMinutes = nil`, and the handler then dereferences the nil pointer: the run ends in
a panic and `CreateAd` is never called. -/
theorem create_without_ttl_panics :
    noTtlRequest.Validate = none ∧ noTtlRequest.TTLMinutes = none ∧
    AdsHandler.ServeHTTP (serviceAt NewAdRepository "id-1" 1000 1001 0)
        (adpostsRequest noTtlRequest) =
      ⟨[], .panicked "invalid memory address or nil pointer dereference"⟩ := by
  refine ⟨by decide, rfl, ?_⟩
  rw [serveHTTP_adposts _ _ noTtlRequest rfl rfl rfl (by decide)]
  rfl

end AdsBackend
